import Mathlib

/-!
Shallow embedding of the parameter-tree parser and indexed-traversal engine
of `src/program.py` (xmlparams).

The generic XML node tree (produced by `loadxml` via `xml.dom.minidom`) is
modelled by `Node`: an element node has a `tagName` and ordered `childNodes`;
a text node carries a raw string `data`.  Whitespace normalisation is done by
the external collaborator and is out of scope here.

Python exceptions are modelled by the `Err` type: `parseError` is the
program's own `ParseError`; `attributeError`, `indexError` and `valueError`
model the built-in exceptions that the untyped Python code can raise
(attribute access on an object lacking it, list index out of range, and a
failed `float()` conversion).  Fallible code returns `Except Err _`.
-/

inductive Node where
  | elem (tagName : String) (childNodes : List Node)
  | text (data : String)

/-- `childNodes` of a node; a minidom `Text` node has no children. -/
def Node.children : Node → List Node
  | .elem _ cs => cs
  | .text _ => []

/-- The `Parameter` variant tree built by the parser (`program.py` lines
131-251).  `enum` stores the recursively parsed selected value and the label
text installed by the inherited `PrimitiveParameter.__init__`.  `matrix`
stores the ordered children together with the `ismatrix` attribute as it is
left on the object after `__init__` finishes.  `struct` stores the
`OrderedDict` of fields as an association list in insertion order. -/
inductive Parameter where
  | primitive (data : String)
  | scalar (data : String)
  | boolean (data : String)
  | enum (value : Parameter) (data : String)
  | matrix (values : List Parameter) (ismatrix : Bool)
  | struct (values : List (String × Parameter))

inductive Err where
  | parseError (msg : String)
  | attributeError (msg : String)
  | indexError
  | valueError (msg : String)
deriving DecidableEq, Repr

/-- `isinstance(p, ContainerParameter)`: only `MatrixParameter` and
`StructParameter` derive from `ContainerParameter`. -/
def isContainer : Parameter → Bool
  | .matrix _ _ => true
  | .struct _ => true
  | _ => false

/-- `PrimitiveParameter.__init__` (line 139): the stored payload is
`str(node.firstChild.data) if node.firstChild else ''`.  The argument is the
node's child list; a first child that is an element has no `.data` attribute,
so accessing it raises `AttributeError`. -/
def primInit : List Node → Except Err String
  | [] => .ok ""
  | .text d :: _ => .ok d
  | .elem _ _ :: _ => .error (.attributeError "Element object has no attribute data")

/-- Python `str()` applied to a `Parameter` (used at line 236 to stringify a
field name).  `PrimitiveParameter.__str__` returns the stored payload and is
inherited by Scalar, Boolean and Enum; containers fall back to the default
`object.__repr__`, whose memory address we elide as a fixed placeholder. -/
def pyStr : Parameter → String
  | .primitive d => d
  | .scalar d => d
  | .boolean d => d
  | .enum _ d => d
  | .matrix _ _ => "<MatrixParameter object>"
  | .struct _ => "<StructParameter object>"

/-- `OrderedDict.__setitem__`: assigning to an existing key replaces its
value in place (keeping the key's original position); a new key is appended
at the end. -/
def insertOD : List (String × Parameter) → String → Parameter → List (String × Parameter)
  | [], k, v => [(k, v)]
  | (k', v') :: rest, k, v =>
    if k' = k then (k, v) :: rest else (k', v') :: insertOD rest k v

mutual

/-- `parseNode` (lines 113-128): dispatch on `node.tagName` (a text node has
no `tagName`, hence `AttributeError`); unknown or empty tags raise
`ParseError`. -/
def parseNode : Node → Except Err Parameter
  | .text _ => .error (.attributeError "Text object has no attribute tagName")
  | .elem tag children =>
    if tag = "" then .error (.parseError ("Cannot parse a node with name: " ++ tag))
    else if tag = "Scalar" then (primInit children).map .scalar
    else if tag = "Boolean" then (primInit children).map .boolean
    else if tag = "String" ∨ tag = "Identifier" ∨ tag = "Value" then
      (primInit children).map .primitive
    else if tag = "Enum" then
      -- `EnumParameter.__init__` (lines 159-161): `childNodes[0]` is parsed
      -- as the selected value, then `childNodes[1].childNodes[0]` feeds the
      -- inherited primitive init; bare list indexing raises `IndexError`.
      match children with
      | [] => .error .indexError
      | c0 :: rest =>
        match parseNode c0 with
        | .error e => .error e
        | .ok v =>
          match rest with
          | [] => .error .indexError
          | c1 :: _ =>
            match c1 with
            | .text _ => .error .indexError
            | .elem _ [] => .error .indexError
            | .elem _ (labelNode :: _) =>
              match primInit labelNode.children with
              | .error e => .error e
              | .ok d => .ok (.enum v d)
    else if tag = "Array" then
      -- `MatrixParameter.__init__` (lines 173-177): `self.values = []`, then
      -- `self.parse(node)` with the `ismatrix` attribute still unset
      -- (modelled as `none`), and only afterwards `self.ismatrix = False`.
      match matrixParse children [] none with
      | .error e => .error e
      | .ok vs => .ok (.matrix vs false)
    else if tag = "Struct" then
      match structParse children [] with
      | .error e => .error e
      | .ok kvs => .ok (.struct kvs)
    else .error (.parseError ("Cannot parse a node with name: " ++ tag))

/-- `MatrixParameter.parse` (lines 186-199) together with
`validateElement` (lines 180-184).  `ismatrix : Option Bool` models the
attribute, `none` while it is still unset.  On a container child with
`self.values` non-empty, `not self.ismatrix` is evaluated: reading the unset
attribute raises `AttributeError`; reading `False` raises the
non-rectangular `ParseError`.  Line 199 parses the value node a second time
before appending. -/
def matrixParse : List Node → List Parameter → Option Bool → Except Err (List Parameter)
  | [], values, _ => .ok values
  | el :: rest, values, ismatrix =>
    match el with
    | .text _ => .error (.attributeError "Text object has no attribute tagName")
    | .elem t cs =>
      if t ≠ "Element" then
        .error (.parseError "Childnodes of array expected to be of type Element")
      else match cs with
        | [value] =>
          match parseNode value with
          | .error e => .error e
          | .ok child =>
            match
              (if isContainer child then
                match values, ismatrix with
                | [], _ => .ok (some true)
                | _ :: _, none =>
                  .error (.attributeError "MatrixParameter object has no attribute ismatrix")
                | _ :: _, some false =>
                  .error (.parseError "Trying to create a non-rectangular array")
                | _ :: _, some true => .ok (some true)
              else .ok ismatrix : Except Err (Option Bool)) with
            | .error e => .error e
            | .ok ismatrix' =>
              match parseNode value with
              | .error e => .error e
              | .ok child2 => matrixParse rest (values ++ [child2]) ismatrix'
        | _ => .error (.parseError "Expected Element to have 1 child only")

/-- `StructParameter.parse` (lines 230-238) together with its
`validateElement` (lines 224-228).  The field name is
`str(parseNode(element.childNodes[1].childNodes[0]))`; indexing an empty
child list raises `IndexError`. -/
def structParse : List Node → List (String × Parameter) → Except Err (List (String × Parameter))
  | [], values => .ok values
  | el :: rest, values =>
    match el with
    | .text _ => .error (.attributeError "Text object has no attribute tagName")
    | .elem t cs =>
      if t ≠ "Element" then
        .error (.parseError "Childnodes of struct expected to be of type Element")
      else match cs with
        | [valNode, nameNode] =>
          match parseNode valNode with
          | .error e => .error e
          | .ok value =>
            match nameNode with
            | .text _ => .error .indexError
            | .elem _ [] => .error .indexError
            | .elem _ (n0 :: _) =>
              match parseNode n0 with
              | .error e => .error e
              | .ok nameParam => structParse rest (insertOD values (pyStr nameParam) value)
        | _ => .error (.parseError "Expected Element to have 2 children")

end

/-- `parseparameter` (lines 69-70): descend two levels from the `Parameter`
element and parse the tagged value node. -/
def parseparameter (xmlnode : Node) : Except Err Parameter :=
  match xmlnode.children with
  | [] => .error (.attributeError "NoneType object has no attribute firstChild")
  | c :: _ =>
    match c.children with
    | [] => .error (.attributeError "NoneType object has no attribute tagName")
    | v :: _ => parseNode v

/-- Numeric value of a list of decimal digit characters (most significant
first). -/
def digitsVal (cs : List Char) : Nat :=
  cs.foldl (fun a c => a * 10 + (c.toNat - 48)) 0

/-- Whitespace stripping from both ends of a character list (Python
`str.strip()` as applied by `float()` to its argument). -/
def pyStrip (cs : List Char) : List Char :=
  ((cs.dropWhile Char.isWhitespace).reverse.dropWhile Char.isWhitespace).reverse

/-- ASCII lower-casing of one character; Python `str.lower()` restricted to
ASCII, which is all the `BooleanParameter` comparison ever needs. -/
def asciiLower (c : Char) : Char :=
  if 'A' ≤ c ∧ c ≤ 'Z' then Char.ofNat (c.toNat + 32) else c

/-- Python `self.data.lower()` (line 155), ASCII-only. -/
def pyLower (s : String) : String :=
  ⟨s.toList.map asciiLower⟩

/-- The result of a successful Python `float(str)` conversion, as far as
`ScalarParameter.hasData` can observe it: a finite decimal is kept exact as
`mant * 10 ^ exp` (the zero test below applies the IEEE-754 rounding), and
the special values infinity and nan are kept symbolic (both truthy). -/
inductive PyFloat where
  | finite (mant : Int) (exp : Int)
  | inf (neg : Bool)
  | nan
deriving DecidableEq, Repr

/-- A maximal digit group as Python's float grammar accepts it: one decimal
digit, then digits with single underscores allowed only *between* digits
(`1_0` is a group, `1__0` and `1_` stop before the offending underscore,
which then makes the whole conversion fail on leftover input).  Returns the
digits with underscores removed, and the unconsumed remainder; `none` when
the input does not start with a digit. -/
def digitGroupCont : List Char → (List Char × List Char)
  | c :: rest =>
    if c.isDigit then
      let dr := digitGroupCont rest
      (c :: dr.1, dr.2)
    else if c = '_' then
      match rest with
      | c2 :: rest2 =>
        if c2.isDigit then
          let dr := digitGroupCont rest2
          (c2 :: dr.1, dr.2)
        else ([], c :: rest)
      | [] => ([], [c])
    else ([], c :: rest)
  | [] => ([], [])

def digitGroup (cs : List Char) : Option (List Char × List Char) :=
  match cs with
  | c :: rest =>
    if c.isDigit then
      let dr := digitGroupCont rest
      some (c :: dr.1, dr.2)
    else none
  | [] => none

/-- Whether the IEEE-754 double nearest to the exact decimal `m * 10 ^ e` is
nonzero.  Under round-to-nearest-even, `float()` returns `0.0` exactly when
the magnitude is at most `2 ^ (-1075)` — half of the smallest subnormal
`2 ^ (-1074)`, the halfway point itself rounding to the even `0.0`.  A huge
magnitude overflows to the (truthy, nonzero) infinity, so `true` is right
there too. -/
def decNonzero (m e : Int) : Bool :=
  if m = 0 then false
  else if 0 ≤ e then true
  else decide (m.natAbs * 2 ^ (1075 : Nat) > 10 ^ (-e).toNat)

/-- Truthiness of a Python float: `0.0` is falsy; infinities and `nan` are
truthy. -/
def pyFloatBool : PyFloat → Bool
  | .finite m e => decNonzero m e
  | .inf _ => true
  | .nan => true

/-- Python's built-in `float(str)`: `[ws] [sign] payload [ws]` where the
payload is case-insensitively `inf`, `infinity`, `nan`, or a decimal literal
`(digits [. digits] | . digits) [(e|E) [sign] digits]` whose digit groups
may contain single underscores between digits.  Finite decimals are kept as
their exact value (the binary rounding is applied by `decNonzero` when the
number is inspected).  Returns `none` where `float()` raises `ValueError`.
Digits are ASCII (the non-ASCII Unicode decimal digits `float()` also
accepts do not occur in these documents). -/
def parseFloat (s : String) : Option PyFloat :=
  let cs := pyStrip s.toList
  let sgncs : Int × List Char :=
    match cs with
    | '+' :: rest => (1, rest)
    | '-' :: rest => (-1, rest)
    | _ => (1, cs)
  let sgn := sgncs.1
  let low := sgncs.2.map asciiLower
  if low = "inf".toList ∨ low = "infinity".toList then some (.inf (sgn < 0))
  else if low = "nan".toList then some .nan
  else
    let intG : List Char × List Char :=
      match digitGroup sgncs.2 with
      | some dr => dr
      | none => ([], sgncs.2)
    let intPart := intG.1
    let fracG : List Char × List Char :=
      match intG.2 with
      | '.' :: rest =>
        match digitGroup rest with
        | some dr => dr
        | none => ([], rest)
      | rest => ([], rest)
    let fracPart := fracG.1
    if intPart.isEmpty ∧ fracPart.isEmpty then none
    else
      let expG : Option (Int × List Char) :=
        match fracG.2 with
        | 'e' :: rest | 'E' :: rest =>
          let esgnrest : Int × List Char :=
            match rest with
            | '+' :: r => (1, r)
            | '-' :: r => (-1, r)
            | _ => (1, rest)
          match digitGroup esgnrest.2 with
          | some dr => some (esgnrest.1 * (digitsVal dr.1 : Int), dr.2)
          | none => none
        | rest => some (0, rest)
      match expG with
      | none => none
      | some (e, rest) =>
        if ¬ rest.isEmpty then none
        else
          some (.finite
            (sgn * ((digitsVal intPart * 10 ^ fracPart.length + digitsVal fracPart : Nat) : Int))
            (e - (fracPart.length : Int)))

mutual

/-- `hasData` of each `Parameter` variant, as Python truthiness of the value
the method returns: `PrimitiveParameter.hasData` returns `self.data` (truthy
iff non-empty, line 142); `ScalarParameter.hasData` returns
`float(self.data)` (truthy iff nonzero; `ValueError` if unparseable, line
150); `BooleanParameter.hasData` compares the lowercased text to `"true"`
(line 155); `EnumParameter.hasData` delegates to the selected value (line
164); containers use `any(...)` over their direct children (lines 202 and
241), left to right with short-circuit on the first truthy child. -/
def hasData : Parameter → Except Err Bool
  | .primitive d => .ok (decide (d ≠ ""))
  | .scalar d =>
    match parseFloat d with
    | none => .error (.valueError ("could not convert string to float: " ++ d))
    | some q => .ok (pyFloatBool q)
  | .boolean d => .ok (decide (pyLower d = "true"))
  | .enum v _ => hasData v
  | .matrix vs _ => anyHasData vs
  | .struct kvs => anyHasDataS kvs

/-- Python `any(param.hasData() for param in self.values)` (line 202):
left to right, the first raised exception propagates, the first truthy
child short-circuits to `True`. -/
def anyHasData : List Parameter → Except Err Bool
  | [] => .ok false
  | p :: rest =>
    match hasData p with
    | .error e => .error e
    | .ok true => .ok true
    | .ok false => anyHasData rest

/-- Python `any(param.hasData() for param in self.values.values())`
(line 241). -/
def anyHasDataS : List (String × Parameter) → Except Err Bool
  | [] => .ok false
  | (_, p) :: rest =>
    match hasData p with
    | .error e => .error e
    | .ok true => .ok true
    | .ok false => anyHasDataS rest

end

/-- A path segment yielded by the traversal engine: a 0-based position for a
Matrix level, a string field key for a Struct level. -/
inductive Ix where
  | num (i : Nat)
  | str (s : String)
deriving DecidableEq, Repr

mutual

/-- `getindicesandvalues` (lines 204-213 for Matrix, 243-251 for Struct):
the lazy generator materialised as the finite list of (path, leaf) pairs it
yields.  The method exists only on containers; on a leaf the generator is
not defined and the function returns the empty list. -/
def getindicesandvalues : Parameter → List (List Ix × Parameter)
  | .matrix vs _ => giavMat 0 vs
  | .struct kvs => giavStr kvs
  | _ => []

/-- The `for index, value in enumerate(self.values)` loop of
`MatrixParameter.getindicesandvalues`, starting from index `i`. -/
def giavMat : Nat → List Parameter → List (List Ix × Parameter)
  | _, [] => []
  | i, v :: rest =>
    (if isContainer v then
      (getindicesandvalues v).map (fun pr => (Ix.num i :: pr.1, pr.2))
    else [([Ix.num i], v)]) ++ giavMat (i + 1) rest

/-- The `for key, value in self.values.items()` loop of
`StructParameter.getindicesandvalues`. -/
def giavStr : List (String × Parameter) → List (List Ix × Parameter)
  | [] => []
  | (k, v) :: rest =>
    (if isContainer v then
      (getindicesandvalues v).map (fun pr => (Ix.str k :: pr.1, pr.2))
    else [([Ix.str k], v)]) ++ giavStr rest

end

/-! ### Concrete input trees

Builders for the generic-node shapes the document collaborator produces:
a leaf value node `<Scalar>text</Scalar>`, the `<Element>` wrapper an
`<Array>` puts around each child, and the two-sub-node `<Element>` wrapper
a `<Struct>` puts around each (value, name) field. -/

def scalarNode (d : String) : Node := .elem "Scalar" [.text d]

def wrapE (c : Node) : Node := .elem "Element" [c]

def arrayNode (cs : List Node) : Node := .elem "Array" (cs.map wrapE)

def fieldNode (name : String) (v : Node) : Node :=
  .elem "Element" [v, .elem "Name" [.elem "String" [.text name]]]

def structNode (fs : List (String × Node)) : Node :=
  .elem "Struct" (fs.map fun kv => fieldNode kv.1 kv.2)

/-! ### One-step unfolding equations

The parser equations below hold by `rfl` and let the proofs step through the
recursion without unfolding everything at once. -/

theorem parseNode_array (cs : List Node) :
    parseNode (.elem "Array" cs) =
      match matrixParse cs [] none with
      | .error e => .error e
      | .ok vs => .ok (.matrix vs false) := by cases cs <;> rfl

theorem parseNode_struct (cs : List Node) :
    parseNode (.elem "Struct" cs) =
      match structParse cs [] with
      | .error e => .error e
      | .ok kvs => .ok (.struct kvs) := by cases cs <;> rfl

theorem matrixParse_cons (value : Node) (rest : List Node) (values : List Parameter)
    (m : Option Bool) :
    matrixParse (wrapE value :: rest) values m =
      match parseNode value with
      | .error e => .error e
      | .ok child =>
        match
          (if isContainer child then
            match values, m with
            | [], _ => .ok (some true)
            | _ :: _, none =>
              .error (.attributeError "MatrixParameter object has no attribute ismatrix")
            | _ :: _, some false =>
              .error (.parseError "Trying to create a non-rectangular array")
            | _ :: _, some true => .ok (some true)
          else .ok m : Except Err (Option Bool)) with
        | .error e => .error e
        | .ok m' =>
          match parseNode value with
          | .error e => .error e
          | .ok child2 => matrixParse rest (values ++ [child2]) m' := rfl

theorem structParse_cons (valNode : Node) (nmTag : String) (n0 : Node) (ns : List Node)
    (rest : List Node) (values : List (String × Parameter)) :
    structParse (Node.elem "Element" [valNode, .elem nmTag (n0 :: ns)] :: rest) values =
      match parseNode valNode with
      | .error e => .error e
      | .ok value =>
        match parseNode n0 with
        | .error e => .error e
        | .ok nameParam => structParse rest (insertOD values (pyStr nameParam) value) := rfl

theorem structParse_cons_text (d : String) (rest : List Node)
    (values : List (String × Parameter)) :
    structParse (Node.text d :: rest) values =
      .error (.attributeError "Text object has no attribute tagName") := rfl

theorem structParse_cons_0 (t : String) (rest : List Node)
    (values : List (String × Parameter)) :
    structParse (Node.elem t [] :: rest) values =
      if t ≠ "Element" then
        .error (.parseError "Childnodes of struct expected to be of type Element")
      else .error (.parseError "Expected Element to have 2 children") := rfl

theorem structParse_cons_1 (t : String) (a : Node) (rest : List Node)
    (values : List (String × Parameter)) :
    structParse (Node.elem t [a] :: rest) values =
      if t ≠ "Element" then
        .error (.parseError "Childnodes of struct expected to be of type Element")
      else .error (.parseError "Expected Element to have 2 children") := rfl

theorem structParse_cons_2_text (t : String) (a : Node) (d' : String) (rest : List Node)
    (values : List (String × Parameter)) :
    structParse (Node.elem t [a, .text d'] :: rest) values =
      if t ≠ "Element" then
        .error (.parseError "Childnodes of struct expected to be of type Element")
      else
        match parseNode a with
        | .error e => .error e
        | .ok _ => .error .indexError := rfl

theorem structParse_cons_2_nil (t : String) (a : Node) (nt : String) (rest : List Node)
    (values : List (String × Parameter)) :
    structParse (Node.elem t [a, .elem nt []] :: rest) values =
      if t ≠ "Element" then
        .error (.parseError "Childnodes of struct expected to be of type Element")
      else
        match parseNode a with
        | .error e => .error e
        | .ok _ => .error .indexError := rfl

theorem structParse_cons_2_elem (t : String) (a : Node) (nt : String) (n0 : Node)
    (ns : List Node) (rest : List Node) (values : List (String × Parameter)) :
    structParse (Node.elem t [a, .elem nt (n0 :: ns)] :: rest) values =
      if t ≠ "Element" then
        .error (.parseError "Childnodes of struct expected to be of type Element")
      else
        match parseNode a with
        | .error e => .error e
        | .ok value =>
          match parseNode n0 with
          | .error e => .error e
          | .ok nameParam => structParse rest (insertOD values (pyStr nameParam) value) := rfl

theorem structParse_cons_3 (t : String) (a b c3 : Node) (ds : List Node) (rest : List Node)
    (values : List (String × Parameter)) :
    structParse (Node.elem t (a :: b :: c3 :: ds) :: rest) values =
      if t ≠ "Element" then
        .error (.parseError "Childnodes of struct expected to be of type Element")
      else .error (.parseError "Expected Element to have 2 children") := rfl

/-! ### The Matrix rectangularity check as the code actually runs it -/

/-- Inside `MatrixParameter.parse`, once `self.values` is non-empty, a
container child evaluates `not self.ismatrix`; if every earlier child was a
non-container the attribute was never assigned, so the read raises
`AttributeError`. -/
theorem matrixParse_attr_error (vs₁ : List Node) :
    ∀ (vc : Node) (vs₂ : List Node) (values : List Parameter) (pc : Parameter),
      values ≠ [] →
      (∀ v ∈ vs₁, ∃ p, parseNode v = .ok p ∧ isContainer p = false) →
      parseNode vc = .ok pc → isContainer pc = true →
      matrixParse ((vs₁ ++ vc :: vs₂).map wrapE) values none =
        .error (.attributeError "MatrixParameter object has no attribute ismatrix") := by
  induction vs₁ with
  | nil =>
    intro vc vs₂ values pc hne hall hvc hc
    cases values with
    | nil => exact absurd rfl hne
    | cons a as =>
      rw [List.nil_append, List.map_cons, matrixParse_cons, hvc]
      simp [hc]
  | cons v vs ih =>
    intro vc vs₂ values pc hne hall hvc hc
    obtain ⟨p, hp, hcp⟩ := hall v (List.mem_cons_self v vs)
    rw [List.cons_append, List.map_cons, matrixParse_cons, hp]
    simp only [hcp, Bool.false_eq_true, if_false]
    simpa using ih vc vs₂ (values ++ [p]) pc (by simp)
      (fun w hw => hall w (List.mem_cons_of_mem v hw)) hvc hc

/-- C1: claimed — parsing an Array fails with `StructuralError` whenever a
container child has a non-container sibling (before or after).  REFUTED: the
code accepts a non-container child that comes after container children
(`[Matrix, Scalar]` parses successfully), and when a container child follows
a non-container one the failure is an `AttributeError` (the unset `ismatrix`
attribute is read at line 194), not the `ParseError` of line 195. -/
theorem c1_rectangularity_counterexample :
    parseNode (arrayNode [arrayNode [], scalarNode "1"]) =
      .ok (.matrix [.matrix [] false, .scalar "1"] false) ∧
    parseNode (arrayNode [scalarNode "1", arrayNode [], scalarNode "2"]) =
      .error (.attributeError "MatrixParameter object has no attribute ismatrix") :=
  ⟨rfl, rfl⟩

/-- C1 (amended): an Array whose first children all parse to non-containers
and which then meets a container child fails with `AttributeError` (reading
the `ismatrix` attribute before it is ever assigned), not `StructuralError`;
in particular `[Scalar, Matrix, Scalar]` so fails.  A non-container child
after container children is accepted: `[Matrix, Scalar]` parses
successfully. -/
theorem c1_rectangularity_amended :
    (∀ (v0 : Node) (vs₁ : List Node) (vc : Node) (vs₂ : List Node) (p0 pc : Parameter),
      parseNode v0 = .ok p0 → isContainer p0 = false →
      (∀ v ∈ vs₁, ∃ p, parseNode v = .ok p ∧ isContainer p = false) →
      parseNode vc = .ok pc → isContainer pc = true →
      parseNode (arrayNode (v0 :: vs₁ ++ vc :: vs₂)) =
        .error (.attributeError "MatrixParameter object has no attribute ismatrix")) ∧
    parseNode (arrayNode [scalarNode "1", arrayNode [], scalarNode "2"]) =
      .error (.attributeError "MatrixParameter object has no attribute ismatrix") ∧
    parseNode (arrayNode [arrayNode [], scalarNode "1"]) =
      .ok (.matrix [.matrix [] false, .scalar "1"] false) := by
  refine ⟨?_, rfl, rfl⟩
  intro v0 vs₁ vc vs₂ p0 pc h0 hc0 hall hvc hc
  rw [show arrayNode (v0 :: vs₁ ++ vc :: vs₂) =
        Node.elem "Array" (wrapE v0 :: (vs₁ ++ vc :: vs₂).map wrapE) from rfl,
      parseNode_array, matrixParse_cons, h0]
  simp only [hc0, Bool.false_eq_true, if_false]
  rw [show ([] : List Parameter) ++ [p0] = [p0] from rfl,
      matrixParse_attr_error vs₁ vc vs₂ [p0] pc (by simp) hall hvc hc]

/-- C1 witness: the general amended statement applied to the concrete array
`[Scalar "1", Array [], Scalar "2"]`. -/
theorem c1_rectangularity_witness :
    parseNode (arrayNode [scalarNode "1", arrayNode [], scalarNode "2"]) =
      .error (.attributeError "MatrixParameter object has no attribute ismatrix") :=
  c1_rectangularity_amended.1 (scalarNode "1") [] (arrayNode []) [scalarNode "2"]
    (.scalar "1") (.matrix [] false) rfl rfl (by simp) rfl rfl

/-- C2: an Array of three Arrays parses successfully — but the constructed
Parameter's `ismatrix` flag is `false`, not `true` as claimed: line 177
(`self.ismatrix = False`) runs after `self.parse(node)`, wiping the flag the
parse loop set.  The second conjunct shows no parse result ever carries
`ismatrix = true`. -/
theorem c2_ismatrix_reset :
    parseNode (arrayNode [arrayNode [], arrayNode [], arrayNode []]) =
      .ok (.matrix [.matrix [] false, .matrix [] false, .matrix [] false] false) ∧
    ∀ (n : Node) (vs : List Parameter), parseNode n ≠ .ok (.matrix vs true) := by
  refine ⟨rfl, ?_⟩
  intro n vs h
  cases n with
  | text d => exact Except.noConfusion h
  | elem tag cs =>
    rw [parseNode.eq_def] at h
    simp only at h
    split_ifs at h <;>
      first
        | exact Except.noConfusion h
        | (cases hp : primInit cs <;> simp [hp, Except.map] at h)
        | (repeat first
            | exact Except.noConfusion h
            | (split at h <;> try simp_all)
            | simp_all)

/-- C2 witness: the never-flagged statement applied to the empty Array. -/
theorem c2_ismatrix_reset_witness :
    parseNode (arrayNode []) ≠ .ok (.matrix [] true) :=
  c2_ismatrix_reset.2 (arrayNode []) []

/-- C4: Scalar `hasData` is numeric truthiness of the payload, validated
lazily.  For every payload `d`: parsing a `Scalar` node never validates the
text; `hasData` is `False` when the payload converts to the float zero (a
finite decimal whose exact value `m * 10 ^ e` has magnitude at most
`2 ^ (-1075)`, i.e. rounds to `0.0`), `True` when it converts to a nonzero
float (including the truthy `inf`/`nan`), and raises the conversion error
exactly when `float()` rejects the text. -/
theorem c4_scalar_hasData (d : String) :
    parseNode (scalarNode d) = .ok (.scalar d) ∧
    (∀ (m e : Int), parseFloat d = some (.finite m e) →
      (m = 0 ∨ (e < 0 ∧ m.natAbs * 2 ^ (1075 : Nat) ≤ 10 ^ (-e).toNat)) →
      hasData (.scalar d) = .ok false) ∧
    (∀ (m e : Int), parseFloat d = some (.finite m e) →
      m ≠ 0 → (0 ≤ e ∨ m.natAbs * 2 ^ (1075 : Nat) > 10 ^ (-e).toNat) →
      hasData (.scalar d) = .ok true) ∧
    (∀ f, parseFloat d = some f → (f = .inf false ∨ f = .inf true ∨ f = .nan) →
      hasData (.scalar d) = .ok true) ∧
    (parseFloat d = none →
      hasData (.scalar d) = .error (.valueError ("could not convert string to float: " ++ d))) := by
  refine ⟨rfl, ?_, ?_, ?_, ?_⟩
  · intro m e hf h0
    have hz : decNonzero m e = false := by
      by_cases hm : m = 0
      · simp [decNonzero, hm]
      · rcases h0 with h0 | ⟨he, hle⟩
        · exact absurd h0 hm
        · have hnl : ¬ (m.natAbs * 2 ^ (1075 : Nat) > 10 ^ (-e).toNat) := not_lt.mpr hle
          simp [decNonzero, hm, not_le.mpr he, hnl]
    simp [hasData, hf, pyFloatBool, hz]
  · intro m e hf hm hcond
    have hz : decNonzero m e = true := by
      rcases hcond with hc | hc
      · simp [decNonzero, hm, hc]
      · by_cases he : 0 ≤ e
        · simp [decNonzero, hm, he]
        · simp [decNonzero, hm, he, hc]
    simp [hasData, hf, pyFloatBool, hz]
  · intro f hf hcase
    have hz : pyFloatBool f = true := by rcases hcase with rfl | rfl | rfl <;> rfl
    simp [hasData, hf, hz]
  · intro hf
    simp [hasData, hf]

set_option maxRecDepth 8000 in
/-- C4 witness: the payloads `"0"`, `"0.0"`, `"3.14"` and `"abc"` from the
spec, pushed through the general statement, together with the `float()`
edge forms: `"inf"` and `"nan"` are accepted and truthy, `"1_0"` parses
through the underscore to the nonzero 10, and `"1e-400"` parses but
underflows to the falsy `0.0`. -/
theorem c4_scalar_hasData_witness :
    (parseFloat "0" = some (.finite 0 0) ∧ hasData (.scalar "0") = .ok false) ∧
    (parseFloat "0.0" = some (.finite 0 (-1)) ∧ hasData (.scalar "0.0") = .ok false) ∧
    (parseFloat "3.14" = some (.finite 314 (-2)) ∧ hasData (.scalar "3.14") = .ok true) ∧
    (parseFloat "abc" = none ∧
      hasData (.scalar "abc") = .error (.valueError "could not convert string to float: abc")) ∧
    (parseFloat "inf" = some (.inf false) ∧ hasData (.scalar "inf") = .ok true) ∧
    (parseFloat "nan" = some .nan ∧ hasData (.scalar "nan") = .ok true) ∧
    (parseFloat "1_0" = some (.finite 10 0) ∧ hasData (.scalar "1_0") = .ok true) ∧
    (parseFloat "1e-400" = some (.finite 1 (-400)) ∧
      hasData (.scalar "1e-400") = .ok false) :=
  ⟨⟨by decide, (c4_scalar_hasData "0").2.1 0 0 (by decide) (Or.inl rfl)⟩,
   ⟨by decide, (c4_scalar_hasData "0.0").2.1 0 (-1) (by decide) (Or.inl rfl)⟩,
   ⟨by decide,
    (c4_scalar_hasData "3.14").2.2.1 314 (-2) (by decide) (by decide) (Or.inr (by decide))⟩,
   ⟨rfl, (c4_scalar_hasData "abc").2.2.2.2 rfl⟩,
   ⟨by decide, (c4_scalar_hasData "inf").2.2.2.1 (.inf false) (by decide) (Or.inl rfl)⟩,
   ⟨by decide, (c4_scalar_hasData "nan").2.2.2.1 .nan (by decide) (Or.inr (Or.inr rfl))⟩,
   ⟨by decide,
    (c4_scalar_hasData "1_0").2.2.1 10 0 (by decide) (by decide) (Or.inl (by decide))⟩,
   ⟨by decide,
    (c4_scalar_hasData "1e-400").2.1 1 (-400) (by decide)
      (Or.inr ⟨by decide, by decide⟩)⟩⟩

/-- C5: claimed — an Enum node with fewer than two children fails with
`StructuralError`.  REFUTED: `EnumParameter.__init__` has no arity check; the
bare indexing `node.childNodes[0]` / `node.childNodes[1]` raises
`IndexError`, which is not a `ParseError` at all (the driver at line 54 only
catches `ParseError`). -/
theorem c5_enum_counterexample :
    parseNode (.elem "Enum" []) = .error .indexError ∧
    parseNode (.elem "Enum" [scalarNode "1"]) = .error .indexError :=
  ⟨rfl, rfl⟩

/-- C5 (amended): an Enum node with fewer than two children fails with an
uncaught `IndexError`, not `StructuralError`; with two children the first is
recursively parsed as the selected value and `hasData` delegates to it,
whatever the label text is. -/
theorem c5_enum_amended :
    parseNode (.elem "Enum" []) = .error .indexError ∧
    parseNode (.elem "Enum" [scalarNode "1"]) = .error .indexError ∧
    parseNode (.elem "Enum" [scalarNode "1", .elem "Name" [.elem "Value" [.text "lbl"]]]) =
      .ok (.enum (.scalar "1") "lbl") ∧
    (∀ (v : Parameter) (d : String), hasData (.enum v d) = hasData v) ∧
    hasData (.enum (.scalar "0") "lbl") = .ok false ∧
    hasData (.enum (.scalar "1") "lbl") = .ok true :=
  ⟨rfl, rfl, rfl, fun _ _ => rfl, rfl, rfl⟩

/-! ### Traversal facts -/

/-- Matrix traversal loop: under the inductive hypothesis for the list
members, every yielded pair carries a non-container value. -/
theorem giavMat_leaves (vs : List Parameter)
    (ih : ∀ v ∈ vs, ∀ pr ∈ getindicesandvalues v, isContainer pr.2 = false) :
    ∀ (i : Nat), ∀ pr ∈ giavMat i vs, isContainer pr.2 = false := by
  induction vs with
  | nil => intro i pr h; simp [giavMat] at h
  | cons v rest ihl =>
    intro i pr h
    rw [giavMat] at h
    rcases List.mem_append.mp h with h1 | h2
    · by_cases hc : isContainer v = true
      · rw [if_pos hc] at h1
        obtain ⟨pr', hpr', rfl⟩ := List.mem_map.mp h1
        exact ih v (List.mem_cons_self v rest) pr' hpr'
      · rw [if_neg hc] at h1
        rw [List.mem_singleton] at h1
        subst h1
        simpa using hc
    · exact ihl (fun w hw => ih w (List.mem_cons_of_mem v hw)) (i + 1) pr h2

/-- Struct traversal loop: same property for the field list. -/
theorem giavStr_leaves (kvs : List (String × Parameter))
    (ih : ∀ kv ∈ kvs, ∀ pr ∈ getindicesandvalues kv.2, isContainer pr.2 = false) :
    ∀ pr ∈ giavStr kvs, isContainer pr.2 = false := by
  induction kvs with
  | nil => intro pr h; simp [giavStr] at h
  | cons kv rest ihl =>
    obtain ⟨k, v⟩ := kv
    intro pr h
    rw [giavStr] at h
    rcases List.mem_append.mp h with h1 | h2
    · by_cases hc : isContainer v = true
      · rw [if_pos hc] at h1
        obtain ⟨pr', hpr', rfl⟩ := List.mem_map.mp h1
        exact ih (k, v) (List.mem_cons_self (k, v) rest) pr' hpr'
      · rw [if_neg hc] at h1
        rw [List.mem_singleton] at h1
        subst h1
        simpa using hc
    · exact ihl (fun w hw => ih w (List.mem_cons_of_mem (k, v) hw)) pr h2

/-- Every pair the traversal engine yields carries a leaf (non-container)
Parameter, whatever the tree (strong induction on size). -/
theorem giav_leaves_aux :
    ∀ (k : Nat) (p : Parameter), sizeOf p ≤ k →
      ∀ pr ∈ getindicesandvalues p, isContainer pr.2 = false := by
  intro k
  induction k with
  | zero =>
    intro p hp
    cases p <;> simp_arith at hp
  | succ k ih =>
    intro p hp pr hpr
    cases p with
    | matrix vs b =>
      refine giavMat_leaves vs ?_ 0 pr hpr
      intro v hv pr' hpr'
      refine ih v ?_ pr' hpr'
      have h1 : sizeOf v < sizeOf vs := List.sizeOf_lt_of_mem hv
      have h2 : 1 + sizeOf vs + sizeOf b = sizeOf (Parameter.matrix vs b) :=
        (Parameter.matrix.sizeOf_spec vs b).symm
      omega
    | struct kvs =>
      refine giavStr_leaves kvs ?_ pr hpr
      intro kv hkv pr' hpr'
      refine ih kv.2 ?_ pr' hpr'
      have h1 : sizeOf kv < sizeOf kvs := List.sizeOf_lt_of_mem hkv
      obtain ⟨s, v⟩ := kv
      have h2 : 1 + sizeOf s + sizeOf v = sizeOf (s, v) := (Prod.mk.sizeOf_spec s v).symm
      have h3 : 1 + sizeOf kvs = sizeOf (Parameter.struct kvs) :=
        (Parameter.struct.sizeOf_spec kvs).symm
      simp only at h1 ⊢
      omega
    | primitive d => simp [getindicesandvalues] at hpr
    | scalar d => simp [getindicesandvalues] at hpr
    | boolean d => simp [getindicesandvalues] at hpr
    | enum v d => simp [getindicesandvalues] at hpr

/-- C3: the Struct `{"a": Matrix [Scalar "1", Scalar "0"], "b": Scalar "5"}`
(as parsed from its node tree) traverses to exactly the three pairs
`(["a", 0], Scalar "1")`, `(["a", 1], Scalar "0")`, `(["b"], Scalar "5")` in
that order — Matrix levels contribute their 0-based position, Struct levels
their field key, prepended in nesting order — and in general only leaf
(non-container) Parameters are ever yielded. -/
theorem c3_traversal_paths :
    parseNode (structNode [("a", arrayNode [scalarNode "1", scalarNode "0"]),
        ("b", scalarNode "5")]) =
      .ok (.struct [("a", .matrix [.scalar "1", .scalar "0"] false), ("b", .scalar "5")]) ∧
    getindicesandvalues
        (.struct [("a", .matrix [.scalar "1", .scalar "0"] false), ("b", .scalar "5")]) =
      [([Ix.str "a", Ix.num 0], .scalar "1"),
       ([Ix.str "a", Ix.num 1], .scalar "0"),
       ([Ix.str "b"], .scalar "5")] ∧
    ∀ (p : Parameter), ∀ pr ∈ getindicesandvalues p, isContainer pr.2 = false :=
  ⟨rfl, rfl, fun p pr hpr => giav_leaves_aux (sizeOf p) p (Nat.le_refl _) pr hpr⟩

/-- C3 witness: the general leaves-only statement applied to the example
Struct and its first yielded pair. -/
theorem c3_traversal_paths_witness :
    isContainer (Parameter.scalar "1") = false :=
  c3_traversal_paths.2.2
    (.struct [("a", .matrix [.scalar "1", .scalar "0"] false), ("b", .scalar "5")])
    ([Ix.str "a", Ix.num 0], .scalar "1") (List.Mem.head _)

/-! ### Struct parsing facts -/

/-- Whenever the Struct parse loop succeeds, every consumed child node was an
`"Element"` wrapper with exactly two sub-nodes. -/
theorem structParse_shape (cs : List Node) :
    ∀ (acc kvs : List (String × Parameter)), structParse cs acc = .ok kvs →
      ∀ c ∈ cs, ∃ (a b : Node), c = .elem "Element" [a, b] := by
  induction cs with
  | nil => intro acc kvs h c hc; simp at hc
  | cons el rest ih =>
    intro acc kvs h c hc
    cases el with
    | text d => rw [structParse_cons_text] at h; exact Except.noConfusion h
    | elem t cs' =>
      rcases cs' with _ | ⟨a, _ | ⟨b, _ | ⟨c3, ds⟩⟩⟩
      · rw [structParse_cons_0] at h
        split_ifs at h
      · rw [structParse_cons_1] at h
        split_ifs at h
      · cases b with
        | text d' =>
          rw [structParse_cons_2_text] at h
          split_ifs at h
          cases hv : parseNode a <;> rw [hv] at h <;> exact Except.noConfusion h
        | elem nt ns =>
          cases ns with
          | nil =>
            rw [structParse_cons_2_nil] at h
            split_ifs at h
            cases hv : parseNode a <;> rw [hv] at h <;> exact Except.noConfusion h
          | cons n0 ns' =>
            rw [structParse_cons_2_elem] at h
            by_cases ht' : t = "Element"
            · rw [if_neg (by simpa using ht')] at h
              rcases List.mem_cons.mp hc with rfl | hc'
              · exact ⟨a, .elem nt (n0 :: ns'), by rw [ht']⟩
              · cases hv : parseNode a with
                | error e => rw [hv] at h; exact Except.noConfusion h
                | ok value =>
                  rw [hv] at h
                  cases hn : parseNode n0 with
                  | error e => rw [hn] at h; exact Except.noConfusion h
                  | ok nameParam =>
                    rw [hn] at h
                    exact ih _ kvs h c hc'
            · rw [if_pos (by simpa using ht')] at h
              exact Except.noConfusion h
      · rw [structParse_cons_3] at h
        split_ifs at h

/-- C6: every child of a Struct node must be an `"Element"` wrapper with
exactly two sub-nodes; a wrapper with 1 or 3 sub-nodes aborts the parse with
the arity `ParseError`, and exactly 2 sub-nodes succeeds (first sub-node the
field value, second supplying the field name). -/
theorem c6_struct_arity :
    parseNode (.elem "Struct" [.elem "Element" [scalarNode "1"]]) =
      .error (.parseError "Expected Element to have 2 children") ∧
    parseNode (.elem "Struct"
        [.elem "Element" [scalarNode "1", .elem "Name" [.elem "String" [.text "a"]],
          scalarNode "9"]]) =
      .error (.parseError "Expected Element to have 2 children") ∧
    parseNode (structNode [("a", scalarNode "1")]) = .ok (.struct [("a", .scalar "1")]) ∧
    ∀ (cs : List Node) (kvs : List (String × Parameter)),
      structParse cs [] = .ok kvs → ∀ c ∈ cs, ∃ (a b : Node), c = .elem "Element" [a, b] :=
  ⟨rfl, rfl, rfl, fun cs kvs h => structParse_shape cs [] kvs h⟩

/-- C6 witness: the shape statement applied to the one-field Struct that
parses successfully. -/
theorem c6_struct_arity_witness :
    ∃ (a b : Node), fieldNode "a" (scalarNode "1") = .elem "Element" [a, b] :=
  c6_struct_arity.2.2.2 [fieldNode "a" (scalarNode "1")] [("a", .scalar "1")] rfl
    (fieldNode "a" (scalarNode "1")) (List.Mem.head _)

/-- `OrderedDict` assignment semantics: inserting key `k` keeps the existing
key order if `k` is already present (only the value changes, in place) and
appends `k` otherwise; afterwards `k` is associated to the new value. -/
theorem insertOD_keys (l : List (String × Parameter)) (k : String) (v : Parameter) :
    ((insertOD l k v).map Prod.fst =
      if k ∈ l.map Prod.fst then l.map Prod.fst else l.map Prod.fst ++ [k]) ∧
    (insertOD l k v).lookup k = some v := by
  induction l with
  | nil => simp [insertOD, List.lookup]
  | cons kv rest ih =>
    obtain ⟨k', v'⟩ := kv
    by_cases hk : k' = k
    · subst hk
      refine ⟨by simp [insertOD], by simp [insertOD, List.lookup]⟩
    · have hL : insertOD ((k', v') :: rest) k v = (k', v') :: insertOD rest k v := by
        simp [insertOD, hk]
      refine ⟨?_, ?_⟩
      · rw [hL, List.map_cons, List.map_cons, ih.1]
        by_cases hm : k ∈ rest.map Prod.fst
        · rw [if_pos hm, if_pos (List.mem_cons_of_mem _ hm)]
        · rw [if_neg hm, if_neg (by simp [Ne.symm hk, hm])]
          simp
      · rw [hL]
        have hbe : (k == k') = false := by simp [Ne.symm hk]
        simp only [List.lookup, hbe]
        exact ih.2

/-- C7: Struct fields appear in document order of the `Element` wrappers, and
a repeated field name silently overwrites the earlier value (last wins, kept
at the first occurrence's position) with no error; in general an
`OrderedDict` insert keeps the key order for existing keys, appends new
keys, and always stores the latest value. -/
theorem c7_struct_duplicates :
    parseNode (structNode [("a", scalarNode "1"), ("b", scalarNode "2"),
        ("c", scalarNode "3")]) =
      .ok (.struct [("a", .scalar "1"), ("b", .scalar "2"), ("c", .scalar "3")]) ∧
    parseNode (structNode [("n", scalarNode "1"), ("m", scalarNode "2"),
        ("n", scalarNode "3")]) =
      .ok (.struct [("n", .scalar "3"), ("m", .scalar "2")]) ∧
    ∀ (l : List (String × Parameter)) (k : String) (v : Parameter),
      ((insertOD l k v).map Prod.fst =
        if k ∈ l.map Prod.fst then l.map Prod.fst else l.map Prod.fst ++ [k]) ∧
      (insertOD l k v).lookup k = some v :=
  ⟨rfl, rfl, insertOD_keys⟩

/-! ### Container hasData facts -/

theorem anyHasData_cons (p : Parameter) (rest : List Parameter) :
    anyHasData (p :: rest) =
      match hasData p with
      | .error e => .error e
      | .ok true => .ok true
      | .ok false => anyHasData rest := rfl

theorem anyHasDataS_cons (k : String) (p : Parameter) (rest : List (String × Parameter)) :
    anyHasDataS ((k, p) :: rest) =
      match hasData p with
      | .error e => .error e
      | .ok true => .ok true
      | .ok false => anyHasDataS rest := rfl

/-- Python `any()` over the children agrees with the boolean OR of the
children's individual `hasData` results whenever they all succeed. -/
theorem anyHasData_or (vs : List Parameter) (bs : List Bool)
    (h : List.Forall₂ (fun v b => hasData v = .ok b) vs bs) :
    anyHasData vs = .ok (bs.any id) := by
  induction h with
  | nil => rfl
  | @cons v b vs' bs' h1 h2 ih =>
    rw [anyHasData_cons, h1]
    cases b with
    | true => simp
    | false => rw [ih]; simp

/-- The same for the Struct field list. -/
theorem anyHasDataS_or (kvs : List (String × Parameter)) (bs : List Bool)
    (h : List.Forall₂ (fun kv b => hasData kv.2 = .ok b) kvs bs) :
    anyHasDataS kvs = .ok (bs.any id) := by
  induction h with
  | nil => rfl
  | @cons kv b kvs' bs' h1 h2 ih =>
    obtain ⟨k, v⟩ := kv
    rw [anyHasDataS_cons, h1]
    cases b with
    | true => simp
    | false => rw [ih]; simp

/-- Matrix children loop: when `any()` returns cleanly, its boolean is `True`
iff some yielded leaf of the corresponding traversal segment has data. -/
theorem anyHasData_leaf_iff (vs : List Parameter)
    (ih : ∀ v ∈ vs, isContainer v = true → ∀ b, hasData v = .ok b →
      (b = true ↔ ∃ pr ∈ getindicesandvalues v, hasData pr.2 = .ok true)) :
    ∀ (i : Nat) (b : Bool), anyHasData vs = .ok b →
      (b = true ↔ ∃ pr ∈ giavMat i vs, hasData pr.2 = .ok true) := by
  induction vs with
  | nil =>
    intro i b h
    rw [show anyHasData [] = (.ok false : Except Err Bool) from rfl] at h
    injection h with h
    subst h
    simp [giavMat]
  | cons v rest ihl =>
    intro i b h
    rw [anyHasData_cons] at h
    cases hv : hasData v with
    | error e => rw [hv] at h; exact Except.noConfusion h
    | ok bv =>
      rw [hv] at h
      cases bv with
      | true =>
        injection h with h
        subst h
        refine ⟨fun _ => ?_, fun _ => rfl⟩
        by_cases hcv : isContainer v = true
        · obtain ⟨pr, hpr, hprt⟩ :=
            (ih v (List.mem_cons_self v rest) hcv true hv).mp rfl
          refine ⟨(Ix.num i :: pr.1, pr.2), ?_, hprt⟩
          rw [giavMat]
          exact List.mem_append_left _
            (by rw [if_pos hcv]; exact List.mem_map_of_mem _ hpr)
        · refine ⟨([Ix.num i], v), ?_, hv⟩
          rw [giavMat]
          exact List.mem_append_left _ (by rw [if_neg hcv]; exact List.mem_singleton.mpr rfl)
      | false =>
        have hres := ihl (fun w hw => ih w (List.mem_cons_of_mem v hw)) (i + 1) b h
        constructor
        · intro hb
          obtain ⟨pr, hpr, hprt⟩ := hres.mp hb
          exact ⟨pr, by rw [giavMat]; exact List.mem_append_right _ hpr, hprt⟩
        · rintro ⟨pr, hpr, hprt⟩
          rw [giavMat] at hpr
          rcases List.mem_append.mp hpr with h1 | h2
          · by_cases hcv : isContainer v = true
            · rw [if_pos hcv] at h1
              obtain ⟨pr', hpr', rfl⟩ := List.mem_map.mp h1
              have hiff := ih v (List.mem_cons_self v rest) hcv false hv
              exact absurd (hiff.mpr ⟨pr', hpr', hprt⟩) (by simp)
            · rw [if_neg hcv] at h1
              rw [List.mem_singleton] at h1
              subst h1
              exact absurd (hv.symm.trans hprt) (by simp)
          · exact hres.mpr ⟨pr, h2, hprt⟩

/-- Struct field loop: same as `anyHasData_leaf_iff`. -/
theorem anyHasDataS_leaf_iff (kvs : List (String × Parameter))
    (ih : ∀ kv ∈ kvs, isContainer kv.2 = true → ∀ b, hasData kv.2 = .ok b →
      (b = true ↔ ∃ pr ∈ getindicesandvalues kv.2, hasData pr.2 = .ok true)) :
    ∀ (b : Bool), anyHasDataS kvs = .ok b →
      (b = true ↔ ∃ pr ∈ giavStr kvs, hasData pr.2 = .ok true) := by
  induction kvs with
  | nil =>
    intro b h
    rw [show anyHasDataS [] = (.ok false : Except Err Bool) from rfl] at h
    injection h with h
    subst h
    simp [giavStr]
  | cons kv rest ihl =>
    obtain ⟨k, v⟩ := kv
    intro b h
    rw [anyHasDataS_cons] at h
    cases hv : hasData v with
    | error e => rw [hv] at h; exact Except.noConfusion h
    | ok bv =>
      rw [hv] at h
      cases bv with
      | true =>
        injection h with h
        subst h
        refine ⟨fun _ => ?_, fun _ => rfl⟩
        by_cases hcv : isContainer v = true
        · obtain ⟨pr, hpr, hprt⟩ :=
            (ih (k, v) (List.mem_cons_self (k, v) rest) hcv true hv).mp rfl
          refine ⟨(Ix.str k :: pr.1, pr.2), ?_, hprt⟩
          rw [giavStr]
          exact List.mem_append_left _
            (by rw [if_pos hcv]; exact List.mem_map_of_mem _ hpr)
        · refine ⟨([Ix.str k], v), ?_, hv⟩
          rw [giavStr]
          exact List.mem_append_left _ (by rw [if_neg hcv]; exact List.mem_singleton.mpr rfl)
      | false =>
        have hres := ihl (fun w hw => ih w (List.mem_cons_of_mem (k, v) hw)) b h
        constructor
        · intro hb
          obtain ⟨pr, hpr, hprt⟩ := hres.mp hb
          exact ⟨pr, by rw [giavStr]; exact List.mem_append_right _ hpr, hprt⟩
        · rintro ⟨pr, hpr, hprt⟩
          rw [giavStr] at hpr
          rcases List.mem_append.mp hpr with h1 | h2
          · by_cases hcv : isContainer v = true
            · rw [if_pos hcv] at h1
              obtain ⟨pr', hpr', rfl⟩ := List.mem_map.mp h1
              have hiff := ih (k, v) (List.mem_cons_self (k, v) rest) hcv false hv
              exact absurd (hiff.mpr ⟨pr', hpr', hprt⟩) (by simp)
            · rw [if_neg hcv] at h1
              rw [List.mem_singleton] at h1
              subst h1
              exact absurd (hv.symm.trans hprt) (by simp)
          · exact hres.mpr ⟨pr, h2, hprt⟩

/-- Strong induction: a container's clean `hasData` boolean is `True` iff
some leaf its traversal yields has data. -/
theorem hasData_leaf_iff_aux :
    ∀ (k : Nat) (p : Parameter), sizeOf p ≤ k → isContainer p = true →
      ∀ b, hasData p = .ok b →
        (b = true ↔ ∃ pr ∈ getindicesandvalues p, hasData pr.2 = .ok true) := by
  intro k
  induction k with
  | zero =>
    intro p hp
    cases p <;> simp_arith at hp
  | succ k ih =>
    intro p hp hcp b hb
    cases p with
    | matrix vs flag =>
      refine anyHasData_leaf_iff vs ?_ 0 b hb
      intro v hv hcv b' hb'
      refine ih v ?_ hcv b' hb'
      have h1 : sizeOf v < sizeOf vs := List.sizeOf_lt_of_mem hv
      have h2 : 1 + sizeOf vs + sizeOf flag = sizeOf (Parameter.matrix vs flag) :=
        (Parameter.matrix.sizeOf_spec vs flag).symm
      omega
    | struct kvs =>
      refine anyHasDataS_leaf_iff kvs ?_ b hb
      intro kv hkv hcv b' hb'
      refine ih kv.2 ?_ hcv b' hb'
      have h1 : sizeOf kv < sizeOf kvs := List.sizeOf_lt_of_mem hkv
      obtain ⟨s, v⟩ := kv
      have h2 : 1 + sizeOf s + sizeOf v = sizeOf (s, v) := (Prod.mk.sizeOf_spec s v).symm
      have h3 : 1 + sizeOf kvs = sizeOf (Parameter.struct kvs) :=
        (Parameter.struct.sizeOf_spec kvs).symm
      simp only at h1 ⊢
      omega
    | primitive d => simp [isContainer] at hcp
    | scalar d => simp [isContainer] at hcp
    | boolean d => simp [isContainer] at hcp
    | enum v d => simp [isContainer] at hcp

/-- C8: a container's `hasData` is the logical OR of its direct children's
`hasData` (evaluated left to right, when they all succeed), and a container's
clean `hasData` boolean is `True` iff some reachable leaf has data. -/
theorem c8_container_or :
    (∀ (vs : List Parameter) (bs : List Bool) (flag : Bool),
      List.Forall₂ (fun v b => hasData v = .ok b) vs bs →
      hasData (.matrix vs flag) = .ok (bs.any id)) ∧
    (∀ (kvs : List (String × Parameter)) (bs : List Bool),
      List.Forall₂ (fun kv b => hasData kv.2 = .ok b) kvs bs →
      hasData (.struct kvs) = .ok (bs.any id)) ∧
    ∀ (p : Parameter), isContainer p = true → ∀ b, hasData p = .ok b →
      (b = true ↔ ∃ pr ∈ getindicesandvalues p, hasData pr.2 = .ok true) :=
  ⟨fun vs bs _ h => anyHasData_or vs bs h,
   fun kvs bs h => anyHasDataS_or kvs bs h,
   fun p hc b hb => hasData_leaf_iff_aux (sizeOf p) p (Nat.le_refl _) hc b hb⟩

/-- C8 witness: the Struct `{"b": Scalar "5"}` has data, and the leaf the
traversal reaches is the Scalar carrying it. -/
theorem c8_container_or_witness :
    ∃ pr ∈ getindicesandvalues (Parameter.struct [("b", Parameter.scalar "5")]),
      hasData pr.2 = .ok true :=
  (c8_container_or.2.2 (.struct [("b", .scalar "5")]) rfl true rfl).mp rfl

/-! ### The traversal generator as a yield relation

`getindicesandvalues` is a Python generator: each call creates a fresh
generator over the immutable tree.  `YieldsAux` captures one complete run of
such a generator as an inductive relation — a run either descends into a
container child and splices its yields under the prepended index, or yields
a leaf pair — and `Yields p l` says a run on container `p` yields exactly
`l`.  Functionality of this relation is the restartability/determinism
claim. -/

inductive GTarget where
  | par (p : Parameter)
  | mat (i : Nat) (vs : List Parameter)
  | str (kvs : List (String × Parameter))

inductive YieldsAux : GTarget → List (List Ix × Parameter) → Prop where
  | matrix (vs : List Parameter) (flag : Bool) (l : List (List Ix × Parameter)) :
      YieldsAux (.mat 0 vs) l → YieldsAux (.par (.matrix vs flag)) l
  | struct (kvs : List (String × Parameter)) (l : List (List Ix × Parameter)) :
      YieldsAux (.str kvs) l → YieldsAux (.par (.struct kvs)) l
  | matNil (i : Nat) : YieldsAux (.mat i []) []
  | matConsC (i : Nat) (v : Parameter) (rest : List Parameter)
      (l lr : List (List Ix × Parameter)) :
      isContainer v = true → YieldsAux (.par v) l → YieldsAux (.mat (i + 1) rest) lr →
      YieldsAux (.mat i (v :: rest)) (l.map (fun pr => (Ix.num i :: pr.1, pr.2)) ++ lr)
  | matConsL (i : Nat) (v : Parameter) (rest : List Parameter)
      (lr : List (List Ix × Parameter)) :
      isContainer v = false → YieldsAux (.mat (i + 1) rest) lr →
      YieldsAux (.mat i (v :: rest)) (([Ix.num i], v) :: lr)
  | strNil : YieldsAux (.str []) []
  | strConsC (k : String) (v : Parameter) (rest : List (String × Parameter))
      (l lr : List (List Ix × Parameter)) :
      isContainer v = true → YieldsAux (.par v) l → YieldsAux (.str rest) lr →
      YieldsAux (.str ((k, v) :: rest)) (l.map (fun pr => (Ix.str k :: pr.1, pr.2)) ++ lr)
  | strConsL (k : String) (v : Parameter) (rest : List (String × Parameter))
      (lr : List (List Ix × Parameter)) :
      isContainer v = false → YieldsAux (.str rest) lr →
      YieldsAux (.str ((k, v) :: rest)) (([Ix.str k], v) :: lr)

def Yields (p : Parameter) (l : List (List Ix × Parameter)) : Prop :=
  YieldsAux (.par p) l

/-- What the materialised traversal computes for each generator target. -/
def gtargetRun : GTarget → List (List Ix × Parameter)
  | .par p => getindicesandvalues p
  | .mat i vs => giavMat i vs
  | .str kvs => giavStr kvs

/-- Every complete generator run yields exactly the materialised list. -/
theorem yieldsAux_eq : ∀ (t : GTarget) (l : List (List Ix × Parameter)),
    YieldsAux t l → l = gtargetRun t := by
  intro t l h
  induction h with
  | matrix vs flag l h ih => exact ih
  | struct kvs l h ih => exact ih
  | matNil i => rfl
  | matConsC i v rest l lr hc hy hr ihy ihr =>
    rw [ihy, ihr]
    show _ = giavMat i (v :: rest)
    rw [show giavMat i (v :: rest) =
          (if isContainer v then
            (getindicesandvalues v).map (fun pr => (Ix.num i :: pr.1, pr.2))
          else [([Ix.num i], v)]) ++ giavMat (i + 1) rest from rfl,
        if_pos hc]
    rfl
  | matConsL i v rest lr hc hr ihr =>
    rw [ihr]
    show _ = giavMat i (v :: rest)
    rw [show giavMat i (v :: rest) =
          (if isContainer v then
            (getindicesandvalues v).map (fun pr => (Ix.num i :: pr.1, pr.2))
          else [([Ix.num i], v)]) ++ giavMat (i + 1) rest from rfl,
        if_neg (by simp [hc])]
    rfl
  | strNil => rfl
  | strConsC k v rest l lr hc hy hr ihy ihr =>
    rw [ihy, ihr]
    show _ = giavStr ((k, v) :: rest)
    rw [show giavStr ((k, v) :: rest) =
          (if isContainer v then
            (getindicesandvalues v).map (fun pr => (Ix.str k :: pr.1, pr.2))
          else [([Ix.str k], v)]) ++ giavStr rest from rfl,
        if_pos hc]
    rfl
  | strConsL k v rest lr hc hr ihr =>
    rw [ihr]
    show _ = giavStr ((k, v) :: rest)
    rw [show giavStr ((k, v) :: rest) =
          (if isContainer v then
            (getindicesandvalues v).map (fun pr => (Ix.str k :: pr.1, pr.2))
          else [([Ix.str k], v)]) ++ giavStr rest from rfl,
        if_neg (by simp [hc])]
    rfl

/-- A run exists for every loop target (strong induction on size). -/
theorem yieldsAux_total :
    ∀ (k : Nat),
      (∀ (i : Nat) (vs : List Parameter), sizeOf vs ≤ k →
        YieldsAux (.mat i vs) (giavMat i vs)) ∧
      (∀ (kvs : List (String × Parameter)), sizeOf kvs ≤ k →
        YieldsAux (.str kvs) (giavStr kvs)) := by
  intro k
  induction k with
  | zero =>
    constructor
    · intro i vs h; cases vs <;> simp_arith at h
    · intro kvs h; cases kvs <;> simp_arith at h
  | succ k ih =>
    have hpar : ∀ (v : Parameter), sizeOf v ≤ k + 1 → isContainer v = true →
        YieldsAux (.par v) (getindicesandvalues v) := by
      intro v hs hc
      cases v with
      | matrix vs' flag =>
        refine YieldsAux.matrix vs' flag _ (ih.1 0 vs' ?_)
        have h2 : 1 + sizeOf vs' + sizeOf flag = sizeOf (Parameter.matrix vs' flag) :=
          (Parameter.matrix.sizeOf_spec vs' flag).symm
        omega
      | struct kvs' =>
        refine YieldsAux.struct kvs' _ (ih.2 kvs' ?_)
        have h2 : 1 + sizeOf kvs' = sizeOf (Parameter.struct kvs') :=
          (Parameter.struct.sizeOf_spec kvs').symm
        omega
      | primitive d => simp [isContainer] at hc
      | scalar d => simp [isContainer] at hc
      | boolean d => simp [isContainer] at hc
      | enum v d => simp [isContainer] at hc
    constructor
    · intro i vs hs
      cases vs with
      | nil => exact YieldsAux.matNil i
      | cons v rest =>
        have hv : sizeOf v ≤ k + 1 := by
          have := List.sizeOf_lt_of_mem (List.mem_cons_self v rest)
          omega
        have hrest : sizeOf rest ≤ k := by
          cases rest <;> simp_arith at hs ⊢ <;> omega
        have h0 : giavMat i (v :: rest) =
            (if isContainer v then
              (getindicesandvalues v).map (fun pr => (Ix.num i :: pr.1, pr.2))
            else [([Ix.num i], v)]) ++ giavMat (i + 1) rest := rfl
        by_cases hc : isContainer v = true
        · have := YieldsAux.matConsC i v rest _ _ hc (hpar v hv hc) (ih.1 (i + 1) rest hrest)
          rw [h0, if_pos hc]
          exact this
        · have := YieldsAux.matConsL i v rest _ (by simpa using hc) (ih.1 (i + 1) rest hrest)
          rw [h0, if_neg hc]
          exact this
    · intro kvs hs
      cases kvs with
      | nil => exact YieldsAux.strNil
      | cons kv rest =>
        obtain ⟨s, v⟩ := kv
        have hv : sizeOf v ≤ k + 1 := by
          have h1 := List.sizeOf_lt_of_mem (List.mem_cons_self (s, v) rest)
          have h2 : 1 + sizeOf s + sizeOf v = sizeOf (s, v) := (Prod.mk.sizeOf_spec s v).symm
          omega
        have hrest : sizeOf rest ≤ k := by
          cases rest <;> simp_arith at hs ⊢ <;> omega
        have h0 : giavStr ((s, v) :: rest) =
            (if isContainer v then
              (getindicesandvalues v).map (fun pr => (Ix.str s :: pr.1, pr.2))
            else [([Ix.str s], v)]) ++ giavStr rest := rfl
        by_cases hc : isContainer v = true
        · have := YieldsAux.strConsC s v rest _ _ hc (hpar v hv hc) (ih.2 rest hrest)
          rw [h0, if_pos hc]
          exact this
        · have := YieldsAux.strConsL s v rest _ (by simpa using hc) (ih.2 rest hrest)
          rw [h0, if_neg hc]
          exact this

/-- C9: traversal is restartable and deterministic: a complete generator run
exists on every container, and any two runs on the same (immutable)
Parameter yield the identical finite sequence — equivalently, every run
yields exactly the materialised `getindicesandvalues` list. -/
theorem c9_traverse_deterministic :
    ∀ (p : Parameter),
      (isContainer p = true → Yields p (getindicesandvalues p)) ∧
      ∀ (l₁ l₂ : List (List Ix × Parameter)), Yields p l₁ → Yields p l₂ → l₁ = l₂ :=
  fun p =>
    ⟨fun hc => by
      cases p with
      | matrix vs flag =>
        exact YieldsAux.matrix vs flag _ ((yieldsAux_total (sizeOf vs)).1 0 vs (Nat.le_refl _))
      | struct kvs =>
        exact YieldsAux.struct kvs _ ((yieldsAux_total (sizeOf kvs)).2 kvs (Nat.le_refl _))
      | primitive d => simp [isContainer] at hc
      | scalar d => simp [isContainer] at hc
      | boolean d => simp [isContainer] at hc
      | enum v d => simp [isContainer] at hc,
     fun l₁ l₂ h1 h2 => by
      rw [yieldsAux_eq _ _ h1, yieldsAux_eq _ _ h2]⟩

/-- C9 witness: a generator run on the Struct `{"b": Scalar "5"}` yields its
single (path, leaf) pair. -/
theorem c9_traverse_deterministic_witness :
    Yields (Parameter.struct [("b", Parameter.scalar "5")])
      [([Ix.str "b"], Parameter.scalar "5")] :=
  (c9_traverse_deterministic (Parameter.struct [("b", Parameter.scalar "5")])).1 rfl

/-- C10: an Array node with zero children and a Struct node with zero
children both parse successfully into empty containers; their `hasData` is
`False` and their traversal yields nothing. -/
theorem c10_empty_containers :
    parseNode (.elem "Array" []) = .ok (.matrix [] false) ∧
    hasData (.matrix [] false) = .ok false ∧
    getindicesandvalues (.matrix [] false) = [] ∧
    parseNode (.elem "Struct" []) = .ok (.struct []) ∧
    hasData (.struct []) = .ok false ∧
    getindicesandvalues (.struct []) = [] :=
  ⟨rfl, rfl, rfl, rfl, rfl, rfl⟩
